import Mathlib

/-!
Verification of the headlines feed aggregator (Go) against its
natural-language specification.  The definitions below are shallow
embeddings of the program's source:

* `externalFromContent`, `isRedditHost` — the external link resolver
  (tools package).  The third-party library functions it calls
  (`html.UnescapeString`, the `golang.org/x/net/html` tokenizer,
  `net/url.Parse`) are not part of this repository; they are taken as
  parameters, so every theorem holds for any behaviour of those
  libraries.
* the three parse loops of `ParseRSSFeed` (Slashdot RDF, Atom/Reddit,
  RSS) over the already-XML-decoded item structures, and the dispatch
  plus empty-result check of `ParseRSSFeed`.
* the fetch retry loop of `ParseRSSFeed`, modelled over an oracle
  giving each attempt's outcome.
* the aggregation loop of `runParsers` (main package) and
  `collectUnpublished`.

Definitions whose names end in `Spec` follow the specification's / the
claims' wording and are compared against the source-derived definitions
in refinement theorems.
-/

namespace Headlines

/-! ## Models of the Go `strings` helpers used by the source

These are written over the character list of a `String` so that every
definition evaluates by kernel reduction on concrete inputs. -/

/-- Model of Go `strings.TrimSpace`: remove leading and trailing
whitespace. -/

def trimSpace (s : String) : String :=
  String.mk (((s.data.dropWhile Char.isWhitespace).reverse.dropWhile
    Char.isWhitespace).reverse)

/-- Model of Go `strings.ToLower`. -/

def toLowerStr (s : String) : String :=
  String.mk (s.data.map Char.toLower)

/-- Model of Go `strings.HasPrefix`. -/

def hasPrefixStr (s p : String) : Bool :=
  p.data.isPrefixOf s.data

/-- Model of Go `strings.HasSuffix`. -/

def hasSuffixStr (s p : String) : Bool :=
  p.data.isSuffixOf s.data

/-- Model of Go `strings.ReplaceAll(s, " ", "")`: drop every space. -/

def stripSpaces (s : String) : String :=
  String.mk (s.data.filter fun c => c ≠ ' ')

/-- Canonical article record, `typesPkg.MainStruct`
(spec: CanonicalArticle `{GUID, Title, Header, Link}`). -/

structure MainStruct where
  GUID : String
  Title : String
  Header : String
  Link : String
  deriving Repr, DecidableEq

/-- Decoded RSS `<item>` (tools package, `Item`). -/

structure Item where
  Title : String
  Link : String
  GUID : String
  ItemID : String
  /-- Field `AtomLink.Href`: the Atom-namespace alternate-link href attribute. -/
  AtomLinkHref : String
  deriving Repr, DecidableEq

/-- Decoded Atom `<entry>` (tools package, `AtomEntry`);
`LinkHref` is `entry.Link.Href`. -/

structure AtomEntry where
  Title : String
  LinkHref : String
  ID : String
  Content : String
  deriving Repr, DecidableEq

/-- Decoded Slashdot RDF `<item>` (tools package, `SlashdotItem`). -/

structure SlashdotItem where
  Title : String
  Link : String
  deriving Repr, DecidableEq

/-! ## External link resolver (tools package, lines 23–74) -/

/-- Model of a parsed `net/url.URL`: the fields `externalFromContent`
reads (`Scheme`, `Host`). -/

structure GoURL where
  scheme : String
  host : String
  deriving Repr, DecidableEq

/-- Token kinds distinguished by the scan loop: `StartTagToken`,
`SelfClosingTagToken`, and everything else it skips. -/

inductive TagKind where
  | start
  | selfClosing
  | otherKind
  deriving Repr, DecidableEq

/-- One attribute of an HTML token (`Key`/`Val`). -/

structure HtmlAttr where
  key : String
  val : String
  deriving Repr, DecidableEq

/-- One token produced by the HTML tokenizer; the token stream is a
`List HtmlToken`, the end of the list standing for `ErrorToken` (EOF). -/

structure HtmlToken where
  kind : TagKind
  data : String
  attrs : List HtmlAttr
  deriving Repr, DecidableEq

/-- Function `isRedditHost` (tools package, lines 65–74). -/

def isRedditHost (host : String) : Bool :=
  if host = "redd.it" then true
  else
    hasSuffixStr host ".reddit.com" ||
    host = "reddit.com" ||
    hasSuffixStr host ".redditmedia.com" ||
    host = "redditmedia.com"

/-- The inner attribute loop of `externalFromContent` (lines 42–60):
scan the attributes of one `<a>` token for the first `href` whose
trimmed value is non-blank, parses as a URL with scheme http or https,
and whose lowercased host is not a Reddit host; `parseURL` models
`net/url.Parse` (`none` = parse error). -/

def findHref (parseURL : String → Option GoURL) : List HtmlAttr → Option String
  | [] => none
  | a :: rest =>
    if a.key ≠ "href" then findHref parseURL rest
    else
      let h := trimSpace a.val
      if h = "" then findHref parseURL rest
      else
        match parseURL h with
        | none => findHref parseURL rest
        | some u =>
          if u.scheme ≠ "http" ∧ u.scheme ≠ "https" then findHref parseURL rest
          else if isRedditHost (toLowerStr u.host) then findHref parseURL rest
          else some h

/-- The token loop of `externalFromContent` (lines 32–62): skip
non-start tokens and non-`a` tags; on an `a` tag return the first
qualifying href if any, else continue; `ErrorToken` (end of stream)
yields not-found. -/

def scanTokens (parseURL : String → Option GoURL) : List HtmlToken → Option String
  | [] => none
  | t :: rest =>
    if t.kind = TagKind.start ∨ t.kind = TagKind.selfClosing then
      if t.data ≠ "a" then scanTokens parseURL rest
      else
        match findHref parseURL t.attrs with
        | some h => some h
        | none => scanTokens parseURL rest
    else scanTokens parseURL rest

/-- Function `externalFromContent` (tools package, lines 23–63).  `unescape`
models `html.UnescapeString` and `tokenize` the construction of the
token stream by `golang.org/x/net/html`; the Go pair
`(string, bool)` with `("", false)` for not-found is modelled as
`Option String`. -/

def externalFromContent (unescape : String → String)
    (tokenize : String → List HtmlToken)
    (parseURL : String → Option GoURL) (escaped : String) : Option String :=
  if trimSpace escaped = "" then none
  else scanTokens parseURL (tokenize (unescape escaped))

/-- Spec wording: a candidate href qualifies only if it is non-blank
after trimming, parses as an absolute URL with scheme `http` or
`https`, and its host is not a self-domain per the deny-list. -/

def qualifiesSpec (parseURL : String → Option GoURL) (h : String) : Bool :=
  h ≠ "" &&
    match parseURL h with
    | none => false
    | some u => (u.scheme = "http" || u.scheme = "https") && !isRedditHost (toLowerStr u.host)

/-- The trimmed values of the `href` attributes of one token, in
attribute order. -/

def attrHrefs (t : HtmlToken) : List String :=
  (t.attrs.filter fun a => a.key = "href").map fun a => trimSpace a.val

/-- Spec wording: the anchor hrefs of the token stream, in token-stream
order (for each start or self-closing `a` tag, its `href` attribute
values in attribute order), trimmed as the code trims them. -/

def hrefCandidates (tokens : List HtmlToken) : List String :=
  (tokens.filter fun t =>
      (t.kind = TagKind.start || t.kind = TagKind.selfClosing) && t.data = "a").flatMap
    attrHrefs

/-- Spec wording: the first qualifying anchor href in token-stream
order, not-found if none exists. -/

def firstOutboundSpec (parseURL : String → Option GoURL)
    (tokens : List HtmlToken) : Option String :=
  (hrefCandidates tokens).find? (qualifiesSpec parseURL)

/-! ## The three parse loops of `ParseRSSFeed` (tools package, lines 185–305)

They operate on the already-XML-decoded item structures; `decodeXML`
(`encoding/xml` with a charset reader) is a third-party library, so a
decode outcome is a parameter where needed. -/

/-- The Slashdot RDF item loop (lines 193–208); `unescape` models
`html.UnescapeString`.  Note the code checks `item.Link == ""` on the
raw, untrimmed link. -/

def parseSlashdotItems (unescape : String → String) (hdr : String) :
    List SlashdotItem → List MainStruct
  | [] => []
  | item :: rest =>
    let title := unescape (trimSpace item.Title)
    if title = "" ∨ item.Link = "" then parseSlashdotItems unescape hdr rest
    else
      { GUID := item.Link, Title := title, Header := hdr, Link := item.Link } ::
        parseSlashdotItems unescape hdr rest

/-- The Atom entry's resolved link (lines 224–227): the trimmed entry
link href, overridden by the external-content link when the resolver
finds one.  `efc` is `externalFromContent` with its library parameters
fixed, applied to the entry content. -/

def atomEntryLink (efc : String → Option String) (e : AtomEntry) : String :=
  match efc e.Content with
  | some ext => ext
  | none => (trimSpace e.LinkHref)

/-- The Atom/Reddit entry loop (lines 218–251); `h` is the feed header
with spaces removed (line 216) and `hdr` the raw feed header. -/

def parseAtomEntries (efc : String → Option String) (h hdr : String) :
    List AtomEntry → List MainStruct
  | [] => []
  | e :: rest =>
    if (trimSpace e.Title) = "" then parseAtomEntries efc h hdr rest
    else if (trimSpace e.ID) ≠ "" then
      { GUID := if h ≠ "" then h ++ ":" ++ (trimSpace e.ID) else (trimSpace e.ID),
        Title := (trimSpace e.Title), Header := hdr, Link := atomEntryLink efc e } ::
        parseAtomEntries efc h hdr rest
    else if atomEntryLink efc e ≠ "" then
      { GUID := atomEntryLink efc e, Title := (trimSpace e.Title), Header := hdr,
        Link := atomEntryLink efc e } :: parseAtomEntries efc h hdr rest
    else parseAtomEntries efc h hdr rest

/-- The RSS item's resolved link, by the code's sequential assignments
(lines 263–270): start from the trimmed item link; if empty and the raw
Atom-namespace href is non-empty, use its trimmed value; if still empty
and the trimmed guid is non-empty, use the trimmed guid. -/

def rssItemLink (item : Item) : String :=
  let link0 := (trimSpace item.Link)
  let link1 :=
    if link0 = "" ∧ item.AtomLinkHref ≠ "" then (trimSpace item.AtomLinkHref) else link0
  if link1 = "" ∧ (trimSpace item.GUID) ≠ "" then (trimSpace item.GUID) else link1

/-- The RSS item's GUID candidate (lines 275–278): trimmed guid, else
trimmed itemID. -/

def rssItemCandidate (item : Item) : String :=
  let c := (trimSpace item.GUID)
  if c = "" then (trimSpace item.ItemID) else c

/-- The RSS item's GUID (lines 280–289): prefixed candidate when a
candidate exists, else the resolved link, unprefixed. -/

def rssItemGuid (h : String) (item : Item) : String :=
  if rssItemCandidate item ≠ "" then
    if h ≠ "" then h ++ ":" ++ rssItemCandidate item else rssItemCandidate item
  else rssItemLink item

/-- The RSS item loop (lines 261–298); `h` is the feed header with
spaces removed (line 259) and `hdr` the raw feed header. -/

def parseRSSItems (h hdr : String) : List Item → List MainStruct
  | [] => []
  | item :: rest =>
    if (trimSpace item.Title) = "" ∨ rssItemLink item = "" then parseRSSItems h hdr rest
    else
      { GUID := rssItemGuid h item, Title := (trimSpace item.Title), Header := hdr,
        Link := rssItemLink item } :: parseRSSItems h hdr rest

/-- Function `ParseRSSFeed` after the body has been fetched (lines 185–305):
branch dispatch on the feed header, the per-branch decode + loop, and
the final empty-result check.  `decS`/`decA`/`decR` are the outcomes of
`decodeXML` for the three target types on this body. -/

def parseRSSFeedBody (unescape : String → String) (efc : String → Option String)
    (hdr : String)
    (decS : Except String (List SlashdotItem))
    (decA : Except String (List AtomEntry))
    (decR : Except String (List Item)) : Except String (List MainStruct) :=
  let postsE : Except String (List MainStruct) :=
    if hdr = "Slashdot" then
      match decS with
      | Except.error e => Except.error ("failed to parse Slashdot RDF XML: " ++ e)
      | Except.ok items => Except.ok (parseSlashdotItems unescape hdr items)
    else if hasPrefixStr hdr "r/" then
      match decA with
      | Except.error e => Except.error ("failed to parse Atom XML: " ++ e)
      | Except.ok entries =>
        Except.ok (parseAtomEntries efc (stripSpaces hdr) hdr entries)
    else
      match decR with
      | Except.error e => Except.error ("failed to parse RSS XML: " ++ e)
      | Except.ok items => Except.ok (parseRSSItems (stripSpaces hdr) hdr items)
  match postsE with
  | Except.error e => Except.error e
  | Except.ok posts =>
    if posts = [] then Except.error "no news releases found in feed"
    else Except.ok posts

/-! ## Spec-side descriptions of the parse loops -/

/-- Spec wording (claim C8): the RSS link fallback order — the item's
own link element if non-empty after trim, else the Atom-namespace
alternate-link href attribute, else the item's guid. -/

def rssResolvedLinkSpec (item : Item) : String :=
  if (trimSpace item.Link) ≠ "" then (trimSpace item.Link)
  else if (trimSpace item.AtomLinkHref) ≠ "" then (trimSpace item.AtomLinkHref)
  else (trimSpace item.GUID)

/-- Spec wording (claim C2): the stable identifier an RSS item carries —
its guid, else its itemID (trimmed). -/

def rssIdentifierSpec (item : Item) : String :=
  if (trimSpace item.GUID) ≠ "" then (trimSpace item.GUID) else (trimSpace item.ItemID)

/-- Spec wording (claim C2): GUID = header-without-spaces + ":" +
identifier when both are non-empty, the bare identifier when the header
is empty, and the resolved link verbatim (no prefix) when no identifier
exists. -/

def rssGuidSpec (h : String) (item : Item) : String :=
  if rssIdentifierSpec item ≠ "" then
    if h ≠ "" then h ++ ":" ++ rssIdentifierSpec item else rssIdentifierSpec item
  else rssResolvedLinkSpec item

/-- Spec wording (claim C8): the per-item outcome of the RSS loop —
`none` (silently skipped) when title or resolved link is empty after
trim, otherwise the canonical article. -/

def rssItemSpec (h hdr : String) (item : Item) : Option MainStruct :=
  if (trimSpace item.Title) = "" ∨ rssResolvedLinkSpec item = "" then none
  else some { GUID := rssGuidSpec h item, Title := (trimSpace item.Title), Header := hdr,
              Link := rssResolvedLinkSpec item }

/-- Spec wording (claim C2): the Atom entry's GUID — header-prefixed
entry id when the entry has one, else the resolved link, unprefixed. -/

def atomGuidSpec (efc : String → Option String) (h : String) (e : AtomEntry) : String :=
  if (trimSpace e.ID) ≠ "" then
    if h ≠ "" then h ++ ":" ++ (trimSpace e.ID) else (trimSpace e.ID)
  else atomEntryLink efc e

/-- The per-entry outcome of the Atom loop: `none` when the title is
empty after trim or the entry has neither an id nor a resolved link,
otherwise the canonical article. -/

def atomEntrySpec (efc : String → Option String) (h hdr : String) (e : AtomEntry) :
    Option MainStruct :=
  if (trimSpace e.Title) = "" then none
  else if (trimSpace e.ID) = "" ∧ atomEntryLink efc e = "" then none
  else some { GUID := atomGuidSpec efc h e, Title := (trimSpace e.Title), Header := hdr,
              Link := atomEntryLink efc e }

/-- The per-item outcome of the Slashdot loop: `none` when the
unescaped trimmed title is empty or the raw link is empty, otherwise
the canonical article. -/

def slashdotItemSpec (unescape : String → String) (hdr : String) (item : SlashdotItem) :
    Option MainStruct :=
  if unescape (trimSpace item.Title) = "" ∨ item.Link = "" then none
  else some { GUID := item.Link, Title := unescape (trimSpace item.Title), Header := hdr,
              Link := item.Link }

/-! ## Orchestrator aggregation (main package, `runParsers`, lines 204–257) -/

/-- Per-feed outcome slot (`feedResult`, main package lines 141–144);
`Err` is `none` for a nil error. -/

structure FeedResult where
  Articles : List MainStruct
  Err : Option String
  deriving Repr, DecidableEq

/-- The inner loop of the aggregation stage (lines 246–252): append
each article whose GUID has not been seen, recording seen GUIDs; the
Go `seen` map is modelled as the list of its keys.  Returns the kept
articles and the updated seen set. -/

def dedupInto (seen : List String) : List MainStruct → List MainStruct × List String
  | [] => ([], seen)
  | a :: rest =>
    if a.GUID ∈ seen then dedupInto seen rest
    else
      let p := dedupInto (a.GUID :: seen) rest
      (a :: p.1, p.2)

/-- The outer loop of the aggregation stage (lines 242–253): skip
errored feeds, thread the seen set through the successful feeds in
declaration order. -/

def aggregateAux (seen : List String) : List FeedResult → List MainStruct
  | [] => []
  | r :: rest =>
    if r.Err.isSome then aggregateAux seen rest
    else
      let p := dedupInto seen r.Articles
      p.1 ++ aggregateAux p.2 rest

/-- The aggregation stage of `runParsers` (lines 238–253). -/

def aggregate (results : List FeedResult) : List MainStruct :=
  aggregateAux [] results

/-- Function `runParsers` after the join barrier (lines 238–257): aggregate,
then return a nil error when nothing is new (line 256–257); the
send-and-mark tail of the function (SMTP/Telegram and DynamoDB calls,
external services) is abstracted as `send`. -/

def runAfterJoin (send : List MainStruct → Option String)
    (results : List FeedResult) : Option String :=
  let allToPublish := aggregate results
  if allToPublish = [] then none else send allToPublish

/-- The flattened article lists of the successful feeds, in declaration
order. -/

def joinOk (results : List FeedResult) : List MainStruct :=
  ((results.filter fun r => !r.Err.isSome).map FeedResult.Articles).flatten

/-! ## `collectUnpublished` (main package, lines 79–134) -/

/-- The loop of `collectUnpublished`.  `lookup` models
`dynamo.IsArticlePublished` (an external DynamoDB query) for this run;
`format` models the inlined email-snippet construction (lines 100–121;
it calls `tools.GetEmojis`, whose source is not in the repository, and
only the produced `Title` string matters here).  As in the code, the
email branch keeps the GUID and leaves `Header`/`Link` at their zero
value, and skips articles with an empty raw title. -/

def collectLoop (lookup : String → Except String Bool) (envTarget : String)
    (format : MainStruct → String) : List MainStruct → List MainStruct
  | [] => []
  | art :: rest =>
    match lookup art.GUID with
    | Except.error _ => collectLoop lookup envTarget format rest
    | Except.ok pub =>
      if pub then collectLoop lookup envTarget format rest
      else if envTarget = "email" then
        if art.Title = "" then collectLoop lookup envTarget format rest
        else
          { GUID := art.GUID, Title := format art, Header := "", Link := "" } ::
            collectLoop lookup envTarget format rest
      else art :: collectLoop lookup envTarget format rest

/-- Function `collectUnpublished` itself: its only return statement is
`return toPublish, nil` (line 133), so the error component is always
nil. -/

def collectUnpublished (lookup : String → Except String Bool) (envTarget : String)
    (format : MainStruct → String) (articles : List MainStruct) :
    Except String (List MainStruct) :=
  Except.ok (collectLoop lookup envTarget format articles)

/-- Spec wording (claim C9): the per-article outcome — skipped on a
lookup error, skipped when already published, otherwise kept (in email
mode, formatted, and skipped when the title is empty). -/

def collectStepSpec (lookup : String → Except String Bool) (envTarget : String)
    (format : MainStruct → String) (art : MainStruct) : Option MainStruct :=
  match lookup art.GUID with
  | Except.error _ => none
  | Except.ok true => none
  | Except.ok false =>
    if envTarget = "email" then
      if art.Title = "" then none
      else some { GUID := art.GUID, Title := format art, Header := "", Link := "" }
    else some art

/-! ## Fetch retry loop (tools package, lines 122–183) -/

/-- The retry loop of `ParseRSSFeed` (lines 155–169), over an oracle
`att` giving each attempt's outcome of `client.Do` — a transport error
or an HTTP status code.  `i` is the current 0-based attempt index,
`fuel` the attempts remaining (`maxRetries - i`); on success the loop
breaks; on a transport error with attempts remaining the loop sleeps
`500 * 2 ^ i` ms (line 165).  Returns the backoff delays slept (in ms)
and the final outcome. -/

def retryFrom (att : Nat → Except String Nat) : Nat → Nat → List Nat × Except String Nat
  | _, 0 => ([], Except.error "")
  | i, fuel + 1 =>
    match att i with
    | Except.ok s => ([], Except.ok s)
    | Except.error e =>
      if fuel = 0 then ([], Except.error e)
      else
        let p := retryFrom att (i + 1) fuel
        (500 * 2 ^ i :: p.1, p.2)

/-- The whole fetch step (lines 155–183): `maxRetries = 3` attempts,
then the transport-failure wrap (line 172) and the status check (lines
176–178), which accepts exactly `http.StatusOK` (200).  Returns the
backoff delays and the terminal outcome for this feed. -/

def fetchResult (att : Nat → Except String Nat) : List Nat × Except String Nat :=
  let p := retryFrom att 0 3
  match p.2 with
  | Except.error e =>
    (p.1, Except.error ("failed to make request after retries: " ++ e))
  | Except.ok code =>
    if code ≠ 200 then
      (p.1, Except.error ("unexpected status code: " ++ toString code))
    else (p.1, Except.ok code)

/-- Spec wording (claim C2): an RSS item qualifies (is emitted) when
its trimmed title and its resolved link are non-empty. -/

def rssQualifies (item : Item) : Bool :=
  trimSpace item.Title ≠ "" && rssResolvedLinkSpec item ≠ ""

/-- Spec wording (claim C2): an Atom entry qualifies (is emitted) when
its trimmed title is non-empty and it has an id or a resolved link. -/

def atomQualifies (efc : String → Option String) (e : AtomEntry) : Bool :=
  trimSpace e.Title ≠ "" && (trimSpace e.ID ≠ "" || atomEntryLink efc e ≠ "")

/-! ## Proofs -/

theorem trimSpace_empty : trimSpace "" = "" := rfl

theorem findHref_eq_find (parseURL : String → Option GoURL) (t : HtmlToken) :
    findHref parseURL t.attrs = (attrHrefs t).find? (qualifiesSpec parseURL) := by
  show findHref parseURL t.attrs =
    (((t.attrs.filter fun a => a.key = "href").map fun a => trimSpace a.val).find?
      (qualifiesSpec parseURL))
  induction t.attrs with
  | nil => rfl
  | cons a rest ih =>
    by_cases hk : a.key = "href"
    · simp only [findHref, hk, ne_eq, not_true_eq_false, if_false, List.filter_cons,
        decide_eq_true_eq, if_pos trivial, List.map_cons]
      by_cases hv : trimSpace a.val = ""
      · simp [hv, List.find?, qualifiesSpec, ih]
      · cases hu : parseURL (trimSpace a.val) with
        | none =>
          simp [hv, hu, List.find?, qualifiesSpec, ih]
        | some u =>
          by_cases hs : u.scheme ≠ "http" ∧ u.scheme ≠ "https"
          · have hb : (u.scheme = "http" || u.scheme = "https") = false := by
              simp [hs.1, hs.2]
            have hq : qualifiesSpec parseURL (trimSpace a.val) = false := by
              simp [qualifiesSpec, hu, hb]
            simp [hv, hu, hs, List.find?, hq, ih]
          · by_cases hr : isRedditHost (toLowerStr u.host)
            · have hq : qualifiesSpec parseURL (trimSpace a.val) = false := by
                simp [qualifiesSpec, hu, hr]
              simp [hv, hu, hs, hr, List.find?, hq, ih]
            · have hq : qualifiesSpec parseURL (trimSpace a.val) = true := by
                rcases not_and_or.mp hs with h1 | h1 <;>
                  simp only [ne_eq, not_not] at h1 <;>
                  simp [qualifiesSpec, hv, hu, h1, hr]
              simp [findHref, hk, hv, hu, hs, hr, List.find?, hq]
    · simp [findHref, hk, List.filter_cons, ih]

theorem hrefCandidates_cons (t : HtmlToken) (rest : List HtmlToken) :
    hrefCandidates (t :: rest) =
      if ((t.kind = TagKind.start || t.kind = TagKind.selfClosing) &&
          t.data = "a") = true
      then attrHrefs t ++ hrefCandidates rest
      else hrefCandidates rest := by
  by_cases hfil : ((t.kind = TagKind.start || t.kind = TagKind.selfClosing) &&
      t.data = "a") = true <;>
    simp [hrefCandidates, List.filter_cons, hfil]

theorem scanTokens_eq_firstOutbound (parseURL : String → Option GoURL)
    (tokens : List HtmlToken) :
    scanTokens parseURL tokens = firstOutboundSpec parseURL tokens := by
  induction tokens with
  | nil => rfl
  | cons t rest ih =>
    simp only [firstOutboundSpec] at ih ⊢
    rw [hrefCandidates_cons]
    by_cases hfil : ((t.kind = TagKind.start || t.kind = TagKind.selfClosing) &&
        t.data = "a") = true
    · have hfil' := hfil
      simp only [Bool.and_eq_true, Bool.or_eq_true, decide_eq_true_eq] at hfil'
      obtain ⟨hk, hd⟩ := hfil'
      have hLHS : scanTokens parseURL (t :: rest) =
          match findHref parseURL t.attrs with
          | some h => some h
          | none => scanTokens parseURL rest := by
        simp [scanTokens, hk, hd]
      rw [hLHS, findHref_eq_find, if_pos hfil, List.find?_append]
      cases hq : (attrHrefs t).find? (qualifiesSpec parseURL) with
      | some h => simp [Option.or, hq]
      | none => simp [Option.or, hq, ih]
    · have hLHS : scanTokens parseURL (t :: rest) = scanTokens parseURL rest := by
        by_cases hk : t.kind = TagKind.start ∨ t.kind = TagKind.selfClosing
        · have hd : t.data ≠ "a" := by
            intro hd
            apply hfil
            rcases hk with h | h <;> simp [h, hd]
          simp [scanTokens, hk, hd]
        · simp [scanTokens, hk]
      rw [hLHS, ih, if_neg hfil]

theorem rssItemLink_eq_spec (item : Item) :
    rssItemLink item = rssResolvedLinkSpec item := by
  unfold rssItemLink rssResolvedLinkSpec
  by_cases h0 : (trimSpace item.Link) = ""
  · by_cases hA : item.AtomLinkHref = ""
    · have hAt : (trimSpace item.AtomLinkHref) = "" := by rw [hA]; exact trimSpace_empty
      by_cases hG : (trimSpace item.GUID) = "" <;>
        simp [h0, hA, hAt, hG, trimSpace_empty]
    · by_cases hAt : (trimSpace item.AtomLinkHref) = ""
      · by_cases hG : (trimSpace item.GUID) = "" <;> simp [h0, hA, hAt, hG]
      · simp [h0, hA, hAt]
  · simp [h0]

theorem rssItemCandidate_eq_spec (item : Item) :
    rssItemCandidate item = rssIdentifierSpec item := by
  unfold rssItemCandidate rssIdentifierSpec
  by_cases hG : (trimSpace item.GUID) = "" <;> simp [hG]

theorem rssItemGuid_eq_spec (h : String) (item : Item) :
    rssItemGuid h item = rssGuidSpec h item := by
  unfold rssItemGuid rssGuidSpec
  rw [rssItemCandidate_eq_spec, rssItemLink_eq_spec]

theorem parseRSSItems_eq_filterMap (h hdr : String) (items : List Item) :
    parseRSSItems h hdr items = items.filterMap (rssItemSpec h hdr) := by
  induction items with
  | nil => rfl
  | cons item rest ih =>
    by_cases hc : (trimSpace item.Title) = "" ∨ rssItemLink item = ""
    · have hs : rssItemSpec h hdr item = none := by
        rw [rssItemSpec, if_pos]
        rw [← rssItemLink_eq_spec]
        exact hc
      simp [parseRSSItems, hc, List.filterMap_cons, hs, ih]
    · have hs : rssItemSpec h hdr item =
          some { GUID := rssItemGuid h item, Title := (trimSpace item.Title), Header := hdr,
                 Link := rssItemLink item } := by
        rw [rssItemSpec, if_neg]
        · rw [rssItemGuid_eq_spec, rssItemLink_eq_spec]
        · rw [← rssItemLink_eq_spec]
          exact hc
      simp [parseRSSItems, hc, List.filterMap_cons, hs, ih]

theorem parseAtomEntries_eq_filterMap (efc : String → Option String) (h hdr : String)
    (entries : List AtomEntry) :
    parseAtomEntries efc h hdr entries = entries.filterMap (atomEntrySpec efc h hdr) := by
  induction entries with
  | nil => rfl
  | cons e rest ih =>
    by_cases ht : (trimSpace e.Title) = ""
    · simp [parseAtomEntries, ht, List.filterMap_cons, atomEntrySpec, ih]
    · by_cases hid : (trimSpace e.ID) = ""
      · by_cases hl : atomEntryLink efc e = ""
        · have hs : atomEntrySpec efc h hdr e = none := by
            simp [atomEntrySpec, ht, hid, hl]
          simp [parseAtomEntries, ht, hid, hl, List.filterMap_cons, hs, ih]
        · have hs : atomEntrySpec efc h hdr e =
              some { GUID := atomEntryLink efc e, Title := (trimSpace e.Title), Header := hdr,
                     Link := atomEntryLink efc e } := by
            simp [atomEntrySpec, ht, hid, hl, atomGuidSpec]
          simp [parseAtomEntries, ht, hid, hl, List.filterMap_cons, hs, ih]
      · have hs : atomEntrySpec efc h hdr e =
            some { GUID := if h ≠ "" then h ++ ":" ++ (trimSpace e.ID) else (trimSpace e.ID),
                   Title := (trimSpace e.Title), Header := hdr, Link := atomEntryLink efc e } := by
          simp [atomEntrySpec, ht, hid, atomGuidSpec]
        simp [parseAtomEntries, ht, hid, List.filterMap_cons, hs, ih]

theorem parseSlashdotItems_eq_filterMap (unescape : String → String) (hdr : String)
    (items : List SlashdotItem) :
    parseSlashdotItems unescape hdr items =
      items.filterMap (slashdotItemSpec unescape hdr) := by
  induction items with
  | nil => rfl
  | cons item rest ih =>
    by_cases hc : unescape (trimSpace item.Title) = "" ∨ item.Link = ""
    · simp [parseSlashdotItems, hc, List.filterMap_cons, slashdotItemSpec, ih]
    · simp [parseSlashdotItems, hc, List.filterMap_cons, slashdotItemSpec, ih]

theorem dedupInto_append (seen : List String) (l1 l2 : List MainStruct) :
    dedupInto seen (l1 ++ l2) =
      ((dedupInto seen l1).1 ++ (dedupInto (dedupInto seen l1).2 l2).1,
       (dedupInto (dedupInto seen l1).2 l2).2) := by
  induction l1 generalizing seen with
  | nil => simp [dedupInto]
  | cons a rest ih =>
    by_cases h : a.GUID ∈ seen <;> simp [dedupInto, h, ih]

theorem joinOk_cons (r : FeedResult) (rest : List FeedResult) :
    joinOk (r :: rest) =
      if r.Err.isSome then joinOk rest else r.Articles ++ joinOk rest := by
  cases hE : r.Err <;> simp [joinOk, List.filter_cons, hE]

theorem aggregateAux_eq_dedup (results : List FeedResult) :
    ∀ seen, aggregateAux seen results = (dedupInto seen (joinOk results)).1 := by
  induction results with
  | nil => intro seen; rfl
  | cons r rest ih =>
    intro seen
    by_cases h : r.Err.isSome
    · simp [aggregateAux, h, joinOk_cons, ih]
    · simp [aggregateAux, h, joinOk_cons, dedupInto_append, ih]

theorem dedupInto_sublist (seen : List String) (l : List MainStruct) :
    List.Sublist (dedupInto seen l).1 l := by
  induction l generalizing seen with
  | nil => simp [dedupInto]
  | cons a rest ih =>
    by_cases h : a.GUID ∈ seen
    · simp only [dedupInto, if_pos h]
      exact List.Sublist.cons a (ih seen)
    · simp only [dedupInto, if_neg h]
      exact List.Sublist.cons₂ a (ih (a.GUID :: seen))

theorem dedupInto_filter (seen : List String) (l : List MainStruct) (g : String) :
    (dedupInto seen l).1.filter (fun a => a.GUID = g) =
      if g ∈ seen then [] else ((l.find? fun a => a.GUID = g).toList) := by
  induction l generalizing seen with
  | nil => by_cases hg : g ∈ seen <;> simp [dedupInto, hg]
  | cons a rest ih =>
    by_cases h : a.GUID ∈ seen
    · rw [dedupInto, if_pos h, ih]
      by_cases hg : g ∈ seen
      · simp [hg]
      · have hne : ¬ a.GUID = g := fun hEq => hg (hEq ▸ h)
        simp [hg, List.find?, hne]
    · rw [dedupInto, if_neg h]
      by_cases hg : g ∈ seen
      · have hne : ¬ a.GUID = g := fun hEq => h (hEq ▸ hg)
        have hrest := ih (a.GUID :: seen)
        rw [if_pos (List.mem_cons_of_mem _ hg)] at hrest
        simp [List.filter_cons, hne, hrest, hg, List.find?]
      · by_cases hag : a.GUID = g
        · subst hag
          have hrest := ih (a.GUID :: seen)
          rw [if_pos (List.mem_cons_self a.GUID seen)] at hrest
          simp [List.filter_cons, hrest, List.find?, hg]
        · have hrest := ih (a.GUID :: seen)
          have hgm : ¬ g ∈ a.GUID :: seen := by
            intro hm
            rcases List.mem_cons.mp hm with hm | hm
            · exact hag hm.symm
            · exact hg hm
          rw [if_neg hgm] at hrest
          simp [List.filter_cons, hag, hrest, hg, List.find?]

theorem dedupInto_guid_not_seen (seen : List String) (l : List MainStruct) :
    ∀ a ∈ (dedupInto seen l).1, a.GUID ∉ seen := by
  induction l generalizing seen with
  | nil => simp [dedupInto]
  | cons a rest ih =>
    by_cases h : a.GUID ∈ seen
    · rw [dedupInto, if_pos h]
      exact ih seen
    · rw [dedupInto, if_neg h]
      intro b hb
      rcases List.mem_cons.mp hb with hb | hb
      · exact hb ▸ h
      · intro hbs
        exact ih (a.GUID :: seen) b hb (List.mem_cons_of_mem _ hbs)

theorem dedupInto_nodup (seen : List String) (l : List MainStruct) :
    ((dedupInto seen l).1.map fun a => a.GUID).Nodup := by
  induction l generalizing seen with
  | nil => simp [dedupInto]
  | cons a rest ih =>
    by_cases h : a.GUID ∈ seen
    · rw [dedupInto, if_pos h]
      exact ih seen
    · rw [dedupInto, if_neg h]
      refine List.nodup_cons.mpr ⟨?_, ih (a.GUID :: seen)⟩
      intro hm
      rcases List.mem_map.mp hm with ⟨b, hb, hbg⟩
      exact dedupInto_guid_not_seen (a.GUID :: seen) rest b hb
        (hbg ▸ List.mem_cons_self a.GUID seen)

theorem aggregate_eq_dedup_joinOk (results : List FeedResult) :
    aggregate results = (dedupInto [] (joinOk results)).1 :=
  aggregateAux_eq_dedup results []

theorem collectLoop_eq_filterMap (lookup : String → Except String Bool)
    (envTarget : String) (format : MainStruct → String) (articles : List MainStruct) :
    collectLoop lookup envTarget format articles =
      articles.filterMap (collectStepSpec lookup envTarget format) := by
  induction articles with
  | nil => rfl
  | cons art rest ih =>
    cases hl : lookup art.GUID with
    | error e => simp [collectLoop, hl, List.filterMap_cons, collectStepSpec, ih]
    | ok pub =>
      cases pub with
      | true => simp [collectLoop, hl, List.filterMap_cons, collectStepSpec, ih]
      | false =>
        by_cases he : envTarget = "email"
        · subst he
          by_cases ht : art.Title = "" <;>
            simp [collectLoop, hl, ht, List.filterMap_cons, collectStepSpec, ih]
        · simp [collectLoop, hl, he, List.filterMap_cons, collectStepSpec, ih]

theorem colon_append_ne_empty (s t : String) : s ++ ":" ++ t ≠ "" := by
  intro hEq
  have h1 := congrArg String.data hEq
  simp [String.data_append] at h1

theorem rss_guid_map (h hdr : String) (items : List Item) :
    ((parseRSSItems h hdr items).map fun a => a.GUID) =
      (items.filter rssQualifies).map (rssGuidSpec h) := by
  induction items with
  | nil => rfl
  | cons item rest ih =>
    by_cases hc : trimSpace item.Title = "" ∨ rssResolvedLinkSpec item = ""
    · have hq : rssQualifies item = false := by
        rcases hc with hc | hc <;> simp [rssQualifies, hc]
      have hcc : trimSpace item.Title = "" ∨ rssItemLink item = "" := by
        rw [rssItemLink_eq_spec]; exact hc
      simp [parseRSSItems, hcc, List.filter_cons, hq, ih]
    · have hq : rssQualifies item = true := by
        push_neg at hc
        simp [rssQualifies, hc.1, hc.2]
      have hcc : ¬ (trimSpace item.Title = "" ∨ rssItemLink item = "") := by
        rw [rssItemLink_eq_spec]; exact hc
      simp [parseRSSItems, hcc, List.filter_cons, hq, ih, rssItemGuid_eq_spec]

theorem atom_guid_map (efc : String → Option String) (h hdr : String)
    (entries : List AtomEntry) :
    ((parseAtomEntries efc h hdr entries).map fun a => a.GUID) =
      (entries.filter (atomQualifies efc)).map (atomGuidSpec efc h) := by
  induction entries with
  | nil => rfl
  | cons e rest ih =>
    by_cases ht : trimSpace e.Title = ""
    · have hq : atomQualifies efc e = false := by simp [atomQualifies, ht]
      simp [parseAtomEntries, ht, List.filter_cons, hq, ih]
    · by_cases hid : trimSpace e.ID = ""
      · by_cases hl : atomEntryLink efc e = ""
        · have hq : atomQualifies efc e = false := by
            simp [atomQualifies, ht, hid, hl]
          simp [parseAtomEntries, ht, hid, hl, List.filter_cons, hq, ih]
        · have hq : atomQualifies efc e = true := by
            simp [atomQualifies, ht, hid, hl]
          simp [parseAtomEntries, ht, hid, hl, List.filter_cons, hq, ih,
            atomGuidSpec]
      · have hq : atomQualifies efc e = true := by simp [atomQualifies, ht, hid]
        simp [parseAtomEntries, ht, hid, List.filter_cons, hq, ih, atomGuidSpec]

theorem joinOk_map_zero_errored (results : List FeedResult) :
    joinOk (results.map fun r =>
      if r.Err.isSome then { Articles := [], Err := r.Err } else r) =
      joinOk results := by
  induction results with
  | nil => rfl
  | cons r rest ih =>
    cases hE : r.Err with
    | none => simp [joinOk_cons, List.map_cons, hE, ih]
    | some e => simp [joinOk_cons, List.map_cons, hE, ih]

theorem joinOk_all_errored (results : List FeedResult)
    (hall : ∀ r ∈ results, r.Err.isSome) : joinOk results = [] := by
  induction results with
  | nil => rfl
  | cons r rest ih =>
    have hr := hall r (List.mem_cons_self r rest)
    rw [joinOk_cons, if_pos hr]
    exact ih fun x hx => hall x (List.mem_cons_of_mem r hx)

/-! ## Claim theorems -/

/-- C7 (confirmed): for every input string, the external link resolver
returns not-found on blank input; otherwise it un-escapes the HTML,
tokenizes it, and returns the first anchor href in token-stream order
that parses as an absolute URL with scheme http or https and whose
host is not a self-domain; absence of such an href is not-found, never
an error (`Option`, no error channel).  The second conjunct checks the
deny-list against the claim's wording: reddit.com and redditmedia.com
by exact or subdomain match, redd.it as the exact short-link alias. -/

theorem externalFromContent_first_outbound
    (unescape : String → String) (tokenize : String → List HtmlToken)
    (parseURL : String → Option GoURL) (escaped : String) :
    (externalFromContent unescape tokenize parseURL escaped =
      if trimSpace escaped = "" then none
      else firstOutboundSpec parseURL (tokenize (unescape escaped))) ∧
    (∀ host : String, isRedditHost host = true ↔
      (host = "reddit.com" ∨ hasSuffixStr host ".reddit.com" = true ∨
       host = "redditmedia.com" ∨ hasSuffixStr host ".redditmedia.com" = true ∨
       host = "redd.it")) := by
  constructor
  · unfold externalFromContent
    by_cases h : trimSpace escaped = "" <;>
      simp [h, scanTokens_eq_firstOutbound]
  · intro host
    by_cases h : host = "redd.it"
    · simp [isRedditHost, h]
    · simp [isRedditHost, h]
      tauto

/-- C8 (confirmed): in the RSS variant the loop equals a filterMap of
the per-item spec outcome: the resolved Link follows the fallback order
item link → Atom-namespace alternate-link href → item guid (first
non-empty after trim, `rssResolvedLinkSpec`), and an item whose title
or resolved link is empty after trim yields `none` — silently skipped,
never an error. -/

theorem rss_link_fallback_and_skip (h hdr : String) (items : List Item) :
    parseRSSItems h hdr items = items.filterMap (rssItemSpec h hdr) :=
  parseRSSItems_eq_filterMap h hdr items

/-- C2 (confirmed): GUID construction for every emitted item of the RSS
and Atom/Reddit variants, with the header space-stripped as the code
does: when the item carries a stable identifier (RSS trimmed guid, else
trimmed itemID; Atom trimmed entry id) the GUID is
header-without-spaces ++ ":" ++ identifier for a non-empty stripped
header and the bare identifier for an empty one; with no identifier the
GUID is the resolved link verbatim, unprefixed (see `rssGuidSpec` and
`atomGuidSpec`). -/

theorem guid_construction (hdr : String) (efc : String → Option String)
    (items : List Item) (entries : List AtomEntry) :
    (((parseRSSItems (stripSpaces hdr) hdr items).map fun a => a.GUID) =
      (items.filter rssQualifies).map (rssGuidSpec (stripSpaces hdr))) ∧
    (((parseAtomEntries efc (stripSpaces hdr) hdr entries).map fun a => a.GUID) =
      (entries.filter (atomQualifies efc)).map (atomGuidSpec efc (stripSpaces hdr))) :=
  ⟨rss_guid_map (stripSpaces hdr) hdr items,
   atom_guid_map efc (stripSpaces hdr) hdr entries⟩

/-- C3 (confirmed): the aggregated output preserves feed declaration
order and is duplicate-free by GUID: it is a sublist of the
concatenation of the successful feeds' article lists in declaration
order (so every article of an earlier-declared feed precedes every
article of a later-declared one), and for every GUID the output's
articles with that GUID are exactly the first article with that GUID in
that concatenation — a GUID produced by two feeds appears exactly once,
from the first-declared feed. -/

theorem aggregate_order_and_dedup (results : List FeedResult) :
    List.Sublist (aggregate results) (joinOk results) ∧
    ∀ g : String, (aggregate results).filter (fun a => a.GUID = g) =
      ((joinOk results).find? fun a => a.GUID = g).toList := by
  rw [aggregate_eq_dedup_joinOk]
  refine ⟨dedupInto_sublist [] (joinOk results), fun g => ?_⟩
  have h := dedupInto_filter [] (joinOk results) g
  simpa using h

/-- C10 (confirmed): the aggregation GUID set deduplicates within a
single feed as well: the output's GUIDs are pairwise distinct for any
results, and for a single successful feed whose own article list
contains duplicate GUIDs the output keeps exactly the first occurrence
in list order. -/

theorem aggregate_within_feed_dedup (results : List FeedResult)
    (arts : List MainStruct) (g : String) :
    ((aggregate results).map fun a => a.GUID).Nodup ∧
    (aggregate [{ Articles := arts, Err := none }]).filter (fun a => a.GUID = g) =
      (arts.find? fun a => a.GUID = g).toList := by
  constructor
  · rw [aggregate_eq_dedup_joinOk]
    exact dedupInto_nodup [] (joinOk results)
  · rw [aggregate_eq_dedup_joinOk]
    have hJ : joinOk [{ Articles := arts, Err := none }] = arts := by
      simp [joinOk]
    rw [hJ]
    have h := dedupInto_filter [] arts g
    simpa using h

/-- C4 (confirmed): per-feed failure isolation — the aggregate is
unchanged when every errored feed's article list is replaced by the
empty list (an errored feed contributes zero articles, all other
feeds' articles are unaffected); every aggregated article comes from a
feed with a nil error; and when every feed failed the aggregate is
empty and `runAfterJoin` returns a nil error for any send behaviour —
not a batch error. -/

theorem feed_failure_isolation (send : List MainStruct → Option String)
    (results : List FeedResult) :
    (aggregate results =
      aggregate (results.map fun r =>
        if r.Err.isSome then { Articles := [], Err := r.Err } else r)) ∧
    (∀ a ∈ aggregate results, ∃ r ∈ results, r.Err = none ∧ a ∈ r.Articles) ∧
    ((∀ r ∈ results, r.Err.isSome) →
      aggregate results = [] ∧ runAfterJoin send results = none) := by
  refine ⟨?_, ?_, ?_⟩
  · rw [aggregate_eq_dedup_joinOk, aggregate_eq_dedup_joinOk,
      joinOk_map_zero_errored]
  · intro a ha
    rw [aggregate_eq_dedup_joinOk] at ha
    have hj : a ∈ joinOk results :=
      (dedupInto_sublist [] (joinOk results)).subset ha
    rw [joinOk, List.mem_flatten] at hj
    rcases hj with ⟨l, hl, hal⟩
    rcases List.mem_map.mp hl with ⟨r, hr, hrl⟩
    rcases List.mem_filter.mp hr with ⟨hrm, hre⟩
    refine ⟨r, hrm, ?_, hrl ▸ hal⟩
    cases hE : r.Err with
    | none => rfl
    | some e => rw [hE] at hre; simp at hre
  · intro hall
    have hJ : joinOk results = [] := joinOk_all_errored results hall
    have hAgg : aggregate results = [] := by
      rw [aggregate_eq_dedup_joinOk, hJ]
      rfl
    exact ⟨hAgg, by simp [runAfterJoin, hAgg]⟩

/-- Witness for `feed_failure_isolation`: a concrete two-feed run in
which both feeds fail (the all-feeds-failed hypothesis is discharged
by checking both slots) yields an empty aggregate and a nil error, and
a concrete successful article is traced back to its feed (membership
hypothesis discharged by evaluation). -/

theorem feed_failure_isolation_witness :
    (aggregate [⟨[⟨"g", "t", "h", "l"⟩], some "boom"⟩, ⟨[], some "bust"⟩] = [] ∧
      runAfterJoin (fun _ => some "sendfail")
        [⟨[⟨"g", "t", "h", "l"⟩], some "boom"⟩, ⟨[], some "bust"⟩] = none) ∧
    (∃ r ∈ [(⟨[⟨"g", "t", "h", "l"⟩], none⟩ : FeedResult)], r.Err = none ∧
      (⟨"g", "t", "h", "l"⟩ : MainStruct) ∈ r.Articles) := by
  constructor
  · exact (feed_failure_isolation (fun _ => some "sendfail")
      [⟨[⟨"g", "t", "h", "l"⟩], some "boom"⟩, ⟨[], some "bust"⟩]).2.2
      (by decide)
  · exact (feed_failure_isolation (fun _ => none)
      [⟨[⟨"g", "t", "h", "l"⟩], none⟩]).2.1
      ⟨"g", "t", "h", "l"⟩ (by decide)

/-- C9 (confirmed): a per-article dedup-store lookup error skips
exactly that one article: `collectUnpublished` always returns a nil
error together with the filterMap of the per-article outcome (so the
lookup error is never propagated), and deleting an article whose
lookup errors from the input leaves the output unchanged — every other
article of the feed is still checked and included. -/

theorem lookup_error_isolation (lookup : String → Except String Bool)
    (envTarget : String) (format : MainStruct → String) :
    (∀ articles, collectUnpublished lookup envTarget format articles =
      Except.ok (articles.filterMap (collectStepSpec lookup envTarget format))) ∧
    (∀ pre post (a : MainStruct) e, lookup a.GUID = Except.error e →
      collectLoop lookup envTarget format (pre ++ a :: post) =
        collectLoop lookup envTarget format (pre ++ post)) := by
  constructor
  · intro articles
    unfold collectUnpublished
    rw [collectLoop_eq_filterMap]
  · intro pre post a e hl
    rw [collectLoop_eq_filterMap, collectLoop_eq_filterMap,
      List.filterMap_append, List.filterMap_append, List.filterMap_cons]
    simp [collectStepSpec, hl]

/-- Witness for `lookup_error_isolation`: with a store that errors on
GUID "gONE" and reports everything else unpublished, the middle
article is skipped and its neighbours are kept. -/

theorem lookup_error_isolation_witness :
    collectLoop
        (fun g => if g = "gONE" then Except.error "x" else Except.ok false)
        "telegram" (fun a => a.Title)
        [⟨"gA", "tA", "h", "l"⟩, ⟨"gONE", "t1", "h", "l"⟩,
         ⟨"gB", "tB", "h", "l"⟩] =
      collectLoop
        (fun g => if g = "gONE" then Except.error "x" else Except.ok false)
        "telegram" (fun a => a.Title)
        [⟨"gA", "tA", "h", "l"⟩, ⟨"gB", "tB", "h", "l"⟩] := by
  have h := (lookup_error_isolation
      (fun g => if g = "gONE" then Except.error "x" else Except.ok false)
      "telegram" (fun a => a.Title)).2
      [⟨"gA", "tA", "h", "l"⟩] [⟨"gB", "tB", "h", "l"⟩]
      ⟨"gONE", "t1", "h", "l"⟩ "x" rfl
  exact h

/-- C5 (confirmed): whichever of the three variants is selected, a body
that decodes successfully but whose loop yields zero qualifying
articles makes `ParseRSSFeed` return the terminal error "no news
releases found in feed"; a successful parse never returns an empty
list. -/

theorem parse_empty_terminal (u : String → String) (efc : String → Option String)
    (hdr : String) (decS : Except String (List SlashdotItem))
    (decA : Except String (List AtomEntry)) (decR : Except String (List Item)) :
    (∀ posts, parseRSSFeedBody u efc hdr decS decA decR = Except.ok posts →
      posts ≠ []) ∧
    (hdr = "Slashdot" → ∀ items, decS = Except.ok items →
      parseSlashdotItems u hdr items = [] →
      parseRSSFeedBody u efc hdr decS decA decR =
        Except.error "no news releases found in feed") ∧
    (hdr ≠ "Slashdot" → hasPrefixStr hdr "r/" = true → ∀ entries,
      decA = Except.ok entries →
      parseAtomEntries efc (stripSpaces hdr) hdr entries = [] →
      parseRSSFeedBody u efc hdr decS decA decR =
        Except.error "no news releases found in feed") ∧
    (hdr ≠ "Slashdot" → hasPrefixStr hdr "r/" = false → ∀ items,
      decR = Except.ok items →
      parseRSSItems (stripSpaces hdr) hdr items = [] →
      parseRSSFeedBody u efc hdr decS decA decR =
        Except.error "no news releases found in feed") := by
  unfold parseRSSFeedBody
  by_cases hS : hdr = "Slashdot"
  · subst hS
    cases decS with
    | error e => simp
    | ok items =>
      by_cases hE : parseSlashdotItems u "Slashdot" items = [] <;> simp [hE]
  · by_cases hR : hasPrefixStr hdr "r/" = true
    · cases decA with
      | error e => simp [hS, hR]
      | ok entries =>
        by_cases hE : parseAtomEntries efc (stripSpaces hdr) hdr entries = [] <;>
          simp [hS, hR, hE]
    · cases decR with
      | error e => simp [hS, hR]
      | ok items =>
        by_cases hE : parseRSSItems (stripSpaces hdr) hdr items = [] <;>
          simp [hS, hR, hE]

/-- Witness for `parse_empty_terminal`: a Slashdot feed whose decoded
body has no items at all parses to the terminal error, not an empty
success. -/

theorem parse_empty_terminal_witness :
    parseRSSFeedBody id (fun _ => none) "Slashdot" (Except.ok [])
        (Except.error "na") (Except.error "nr") =
      Except.error "no news releases found in feed" :=
  (parse_empty_terminal id (fun _ => none) "Slashdot" (Except.ok [])
      (Except.error "na") (Except.error "nr")).2.1 rfl [] rfl rfl

/-- C6 (corrected): the fetch step retries only transport-level
failures, making at most 3 attempts with backoff delays 500 ms then
1 s, and any response — whatever its status — stops the retry loop;
but the status accepted is exactly 200, not the whole 2xx success
class (see the counterexample at status 201): a non-200 status is an
immediate terminal error with no retry, and a 200 status succeeds. -/

theorem fetch_retry_amended (att : Nat → Except String Nat) :
    ((fetchResult att).1 = [500, 1000].take (fetchResult att).1.length) ∧
    ((fetchResult att).1.length ≤ 2) ∧
    (∀ i, i < (fetchResult att).1.length → ∃ e, att i = Except.error e) ∧
    (∀ s, att 0 = Except.ok s → (fetchResult att).1 = [] ∧
      (s = 200 → (fetchResult att).2 = Except.ok s) ∧
      (s ≠ 200 → (fetchResult att).2 =
        Except.error ("unexpected status code: " ++ toString s))) := by
  cases h0 : att 0 with
  | ok s0 =>
    have hfr : retryFrom att 0 3 = ([], Except.ok s0) := by
      simp [retryFrom, h0]
    by_cases hs : s0 = 200
    · refine ⟨by simp [fetchResult, hfr, hs], by simp [fetchResult, hfr, hs],
        by simp [fetchResult, hfr, hs], ?_⟩
      intro s hmem
      injection hmem with h2
      subst h2
      subst hs
      exact ⟨by simp [fetchResult, hfr], fun _ => by simp [fetchResult, hfr],
        fun hne => absurd rfl hne⟩
    · refine ⟨by simp [fetchResult, hfr, hs], by simp [fetchResult, hfr, hs],
        by simp [fetchResult, hfr, hs], ?_⟩
      intro s hmem
      injection hmem with h2
      subst h2
      exact ⟨by simp [fetchResult, hfr, hs], fun hEq => absurd hEq hs,
        fun _ => by simp [fetchResult, hfr, hs]⟩
  | error e0 =>
    cases h1 : att 1 with
    | ok s1 =>
      have hfr : retryFrom att 0 3 = ([500], Except.ok s1) := by
        simp [retryFrom, h0, h1]
      have hdel : (fetchResult att).1 = [500] := by
        by_cases hs : s1 = 200 <;> simp [fetchResult, hfr, hs]
      refine ⟨by rw [hdel]; rfl, by rw [hdel]; decide, ?_, ?_⟩
      · intro i hi
        rw [hdel] at hi
        have hi0 : i = 0 := by simpa using hi
        exact hi0 ▸ ⟨e0, h0⟩
      · intro s hmem
        simp at hmem
    | error e1 =>
      have hC : ∀ i, i < 2 → ∃ e, att i = Except.error e := by
        intro i hi
        match i, hi with
        | 0, _ => exact ⟨e0, h0⟩
        | 1, _ => exact ⟨e1, h1⟩
      have hdel : (fetchResult att).1 = [500, 1000] := by
        cases h2 : att 2 with
        | ok s2 =>
          have hfr : retryFrom att 0 3 = ([500, 1000], Except.ok s2) := by
            simp [retryFrom, h0, h1, h2]
          by_cases hs : s2 = 200 <;> simp [fetchResult, hfr, hs]
        | error e2 =>
          have hfr : retryFrom att 0 3 = ([500, 1000], Except.error e2) := by
            simp [retryFrom, h0, h1, h2]
          simp [fetchResult, hfr]
      refine ⟨by rw [hdel]; rfl, by rw [hdel]; decide, ?_, ?_⟩
      · intro i hi
        rw [hdel] at hi
        refine hC i ?_
        simpa using hi
      · intro s hmem
        simp at hmem

/-- Witness for `fetch_retry_amended`: an immediate 404 response makes
the fetch fail terminally with no backoff sleep (status hypotheses
discharged at 404). -/

theorem fetch_retry_amended_witness :
    (fetchResult (fun _ => Except.ok 404)).1 = [] ∧
    (fetchResult (fun _ => Except.ok 404)).2 =
      Except.error ("unexpected status code: " ++ toString 404) := by
  have h := (fetch_retry_amended (fun _ => Except.ok 404)).2.2.2 404 rfl
  exact ⟨h.1, h.2.2 (by decide)⟩

/-- Counterexample to C6 as stated: HTTP status 201 is in the 2xx
success class, yet the code (`resp.StatusCode != http.StatusOK`)
reports it as a terminal protocol error. -/

theorem fetch_status_2xx_cx :
    fetchResult (fun _ => Except.ok 201) =
      ([], Except.error "unexpected status code: 201") ∧
    200 ≤ 201 ∧ 201 < 300 := by
  refine ⟨?_, by decide, by decide⟩
  rfl

theorem rssGuidSpec_ne_empty (h : String) (item : Item)
    (hl : rssResolvedLinkSpec item ≠ "") : rssGuidSpec h item ≠ "" := by
  rw [rssGuidSpec]
  by_cases hi : rssIdentifierSpec item ≠ ""
  · rw [if_pos hi]
    by_cases hh : h ≠ ""
    · rw [if_pos hh]
      exact colon_append_ne_empty h (rssIdentifierSpec item)
    · rw [if_neg hh]
      exact hi
  · rw [if_neg hi]
    exact hl

theorem atomGuidSpec_ne_empty (efc : String → Option String) (h : String)
    (e : AtomEntry)
    (hor : trimSpace e.ID ≠ "" ∨ atomEntryLink efc e ≠ "") :
    atomGuidSpec efc h e ≠ "" := by
  rw [atomGuidSpec]
  by_cases hi : trimSpace e.ID ≠ ""
  · rw [if_pos hi]
    by_cases hh : h ≠ ""
    · rw [if_pos hh]
      exact colon_append_ne_empty h (trimSpace e.ID)
    · rw [if_neg hh]
      exact hi
  · rw [if_neg hi]
    rcases hor with hor | hor
    · exact absurd hor hi
    · exact hor

/-- C1 (corrected): every article emitted by any of the three parser
variants has a non-empty GUID and a non-empty Title, and items failing
the per-variant checks are dropped from the list, never surfaced as an
error (the loops are total; the last three conjuncts show a failing
item contributes nothing).  The RSS branch further guarantees a
non-empty resolved Link, and emits Title and Link in trimmed form; the
Slashdot branch guarantees a non-empty raw Link (checked before
trimming, so it may be whitespace-only) equal to the GUID; the Atom
branch may emit an empty Link when the entry has a non-empty id — the
original claim's "non-empty Link after whitespace trimming" fails
there, see `parsed_article_invariants_cx`. -/

theorem parsed_article_invariants (u : String → String)
    (efc : String → Option String) (h hdr : String) (items : List Item)
    (entries : List AtomEntry) (sitems : List SlashdotItem) (a : MainStruct) :
    (a ∈ parseRSSItems h hdr items → a.GUID ≠ "" ∧ a.Title ≠ "" ∧ a.Link ≠ "" ∧
      ∃ item, item ∈ items ∧ a.Title = trimSpace item.Title ∧
        a.Link = rssResolvedLinkSpec item) ∧
    (a ∈ parseAtomEntries efc h hdr entries → a.GUID ≠ "" ∧ a.Title ≠ "" ∧
      ∃ e, e ∈ entries ∧ a.Title = trimSpace e.Title ∧
        a.Link = atomEntryLink efc e) ∧
    (a ∈ parseSlashdotItems u hdr sitems →
      a.GUID ≠ "" ∧ a.Title ≠ "" ∧ a.Link ≠ "" ∧ a.GUID = a.Link) ∧
    (∀ item rest, trimSpace item.Title = "" ∨ rssResolvedLinkSpec item = "" →
      parseRSSItems h hdr (item :: rest) = parseRSSItems h hdr rest) ∧
    (∀ e rest, trimSpace e.Title = "" →
      parseAtomEntries efc h hdr (e :: rest) = parseAtomEntries efc h hdr rest) ∧
    (∀ it rest, u (trimSpace it.Title) = "" ∨ it.Link = "" →
      parseSlashdotItems u hdr (it :: rest) = parseSlashdotItems u hdr rest) := by
  refine ⟨?_, ?_, ?_, ?_, ?_, ?_⟩
  · intro ha
    rw [parseRSSItems_eq_filterMap] at ha
    rcases List.mem_filterMap.mp ha with ⟨item, hmem, hstep⟩
    rw [rssItemSpec] at hstep
    by_cases hc : trimSpace item.Title = "" ∨ rssResolvedLinkSpec item = ""
    · rw [if_pos hc] at hstep
      cases hstep
    · rw [if_neg hc] at hstep
      push_neg at hc
      injection hstep with hstep
      subst hstep
      exact ⟨rssGuidSpec_ne_empty h item hc.2, hc.1, hc.2, item, hmem, rfl, rfl⟩
  · intro ha
    rw [parseAtomEntries_eq_filterMap] at ha
    rcases List.mem_filterMap.mp ha with ⟨e, hmem, hstep⟩
    rw [atomEntrySpec] at hstep
    by_cases ht : trimSpace e.Title = ""
    · rw [if_pos ht] at hstep
      cases hstep
    · rw [if_neg ht] at hstep
      by_cases hc : trimSpace e.ID = "" ∧ atomEntryLink efc e = ""
      · rw [if_pos hc] at hstep
        cases hstep
      · rw [if_neg hc] at hstep
        injection hstep with hstep
        subst hstep
        have hor : trimSpace e.ID ≠ "" ∨ atomEntryLink efc e ≠ "" := by
          rcases not_and_or.mp hc with hc | hc
          · exact Or.inl hc
          · exact Or.inr hc
        exact ⟨atomGuidSpec_ne_empty efc h e hor, ht, e, hmem, rfl, rfl⟩
  · intro ha
    rw [parseSlashdotItems_eq_filterMap] at ha
    rcases List.mem_filterMap.mp ha with ⟨it, hmem, hstep⟩
    rw [slashdotItemSpec] at hstep
    by_cases hc : u (trimSpace it.Title) = "" ∨ it.Link = ""
    · rw [if_pos hc] at hstep
      cases hstep
    · rw [if_neg hc] at hstep
      push_neg at hc
      injection hstep with hstep
      subst hstep
      exact ⟨hc.2, hc.1, hc.2, rfl⟩
  · intro item rest hcond
    have hnone : rssItemSpec h hdr item = none := by
      rw [rssItemSpec, if_pos hcond]
    rw [parseRSSItems_eq_filterMap, parseRSSItems_eq_filterMap,
      List.filterMap_cons, hnone]
  · intro e rest ht
    have hnone : atomEntrySpec efc h hdr e = none := by
      rw [atomEntrySpec, if_pos ht]
    rw [parseAtomEntries_eq_filterMap, parseAtomEntries_eq_filterMap,
      List.filterMap_cons, hnone]
  · intro it rest hcond
    have hnone : slashdotItemSpec u hdr it = none := by
      rw [slashdotItemSpec, if_pos hcond]
    rw [parseSlashdotItems_eq_filterMap, parseSlashdotItems_eq_filterMap,
      List.filterMap_cons, hnone]

/-- Counterexample to C1 as stated: (i) an Atom entry with a non-empty
id and no link at all is emitted by `ParseRSSFeed` with an empty Link
(the Atom branch never checks the link when an id is present); (ii) a
Slashdot item whose raw link is a single space passes the untrimmed
`item.Link == ""` check and is emitted with a Link (and GUID) that is
empty after whitespace trimming. -/

theorem parsed_article_invariants_cx :
    parseRSSFeedBody id (externalFromContent id (fun _ => []) (fun _ => none))
        "r/x" (Except.error "") (Except.ok [⟨"T", "", "id", ""⟩])
        (Except.error "") =
      Except.ok [⟨"r/x:id", "T", "r/x", ""⟩] ∧
    parseRSSFeedBody id (fun _ => none) "Slashdot"
        (Except.ok [⟨"T", " "⟩]) (Except.error "") (Except.error "") =
      Except.ok [⟨" ", "T", "Slashdot", " "⟩] ∧
    trimSpace " " = "" :=
  ⟨rfl, rfl, rfl⟩

/-- Witness for `parsed_article_invariants`: a concrete RSS item with
padded title and link is emitted trimmed with a prefixed GUID
(membership discharged by evaluation), and a concrete item with an
empty title is dropped without error (skip hypothesis discharged by
evaluation). -/

theorem parsed_article_invariants_witness :
    ((⟨"hd:id1", "T", "hdr", "L"⟩ : MainStruct).GUID ≠ "" ∧
     (⟨"hd:id1", "T", "hdr", "L"⟩ : MainStruct).Title ≠ "" ∧
     (⟨"hd:id1", "T", "hdr", "L"⟩ : MainStruct).Link ≠ "" ∧
     ∃ item, item ∈ [(⟨" T ", " L ", "id1", "", ""⟩ : Item)] ∧
       (⟨"hd:id1", "T", "hdr", "L"⟩ : MainStruct).Title = trimSpace item.Title ∧
       (⟨"hd:id1", "T", "hdr", "L"⟩ : MainStruct).Link = rssResolvedLinkSpec item) ∧
    parseRSSItems "hd" "hdr" [⟨"", "x", "", "", ""⟩] = [] := by
  constructor
  · exact (parsed_article_invariants id (fun _ => none) "hd" "hdr"
      [⟨" T ", " L ", "id1", "", ""⟩] [] [] ⟨"hd:id1", "T", "hdr", "L"⟩).1
      (by decide)
  · have hdrop := (parsed_article_invariants id (fun _ => none) "hd" "hdr"
      [] [] [] ⟨"", "", "", ""⟩).2.2.2.1 ⟨"", "x", "", "", ""⟩ []
      (Or.inl (by decide))
    exact hdrop.trans rfl

end Headlines

